import Mathlib

/-
  Verification of `packages/amplify-cli/src/init-steps/preInitSetup.ts`.

  The module is embedded as an event-trace semantics: every externally visible
  action (printing, telemetry, subprocess invocation, filesystem write,
  feature-flag operation) is recorded as an `Event`, and the mutable pieces of
  the run (the threaded context object, the process-wide feature-flag
  initialization bit, and the pending deferred process exit) live in a state
  record `PState` that each embedded function transforms.

  External collaborators that the excerpt imports but whose code is not part of
  the excerpt (`exitOnNextTick`, the `FeatureFlags` store, the package-manager
  detector/normalizer, `generateLocalEnvInfoFile`, `insertAmplifyIgnore`, the
  path manager, and the underlying `git`/package-manager executables) are
  modelled from the spec, as unconstrained oracles in `Env` plus recorded
  events; each such definition carries a doc comment saying so.
-/

namespace AmplifyPreInit

/-- The in-memory Local Environment Record: `projectPath`, `defaultEditor`,
`envName`, exactly the object literal built by `setLocalEnvDefaults`. -/
structure LocalEnvInfo where
  projectPath : String
  defaultEditor : String
  envName : String
  deriving DecidableEq, Repr

/-- The JavaScript exception values that can arise in the excerpt: a failing
`url.parse`, a failing `git ls-remote`, a failing `git clone`, the
`NonEmptyDirectoryError` thrown value, a failing package-manager install, and
a failing persistence write from `generateLocalEnvInfoFile`. -/
inductive JsError where
  | urlParseError (repoUrl : String)
  | lsRemoteError (repoUrl : String)
  | cloneError (repoUrl : String)
  | nonEmptyDirectoryError (message : String)
  | installError (pm : String)
  | persistenceError
  deriving DecidableEq, Repr

/-- Externally visible actions of the module, in the order they occur.
`execLsRemote u` records `execSync` of the command string built as
`git ls-remote` followed by `u`; `execClone u` records `execSync` of
`git clone` followed by `u` and the current-directory target; `execInstall pm`
records `execSync` of `pm` followed by `install`.  `ffInit readVal` records
`FeatureFlags` initialization together with the value that the
`CLIContextEnvironmentProvider` callback reads from
`context.exeInfo.localEnvInfo` at that moment. -/
inductive Event where
  | printWarning (msg : String)
  | printError (msg : String)
  | emitError (e : JsError)
  | emitSuccess
  | execLsRemote (repoUrl : String)
  | execClone (repoUrl : String)
  | execInstall (pm : String)
  | writeLocalEnvInfo (info : LocalEnvInfo)
  | insertGitIgnore (path : String)
  | copyDir (src : String) (dst : String)
  | ffInit (readVal : Option LocalEnvInfo)
  | ffEnsureDefaults
  deriving DecidableEq, Repr

/-- The `amplify` sub-record of `context.exeInfo.inputParams`; the excerpt
writes only its `envName` field. -/
structure AmplifyParams where
  envName : Option String
  deriving DecidableEq, Repr

/-- The `context.exeInfo.inputParams` record. -/
structure InputParams where
  amplify : AmplifyParams
  deriving DecidableEq, Repr

/-- The `context.exeInfo` record: the excerpt writes `localEnvInfo` and
`inputParams.amplify.envName`. -/
structure ExeInfo where
  localEnvInfo : Option LocalEnvInfo
  inputParams : InputParams
  deriving DecidableEq, Repr

/-- The `context.parameters.options` record: the two trigger options consumed
by `preInitSetup`. -/
structure CmdOptions where
  app : Option String
  quickstart : Bool
  deriving DecidableEq, Repr

/-- The `$TSContext` object, restricted to the fields the excerpt reads or
writes.  Printing, telemetry and `usageData` are recorded as events instead of
being carried in the context. -/
structure Context where
  options : CmdOptions
  exeInfo : ExeInfo
  deriving DecidableEq, Repr

/-- The environment of a run: results of every external observation the
excerpt makes.  `cwd` is `process.cwd()`; `cwdFiles` is
`fs.readdirSync(process.cwd())`; `urlParseOk u` is whether `url.parse u`
returns rather than throws; `lsRemoteOk u` / `cloneOk u` are whether the
corresponding `git` invocations exit successfully; `packageManager` is the
result of the external detector `getPackageManager`; `normalizePMForOS` is the
external normalizer `normalizePackageManagerForOS` (modelled from the spec:
detector returns a manager id or none, normalizer returns an invocable name or
none); `installOk` / `writeEnvOk` are whether the install subprocess and the
`generateLocalEnvInfoFile` persistence write succeed; `gitIgnorePath` and
`amplifyDirPath` are the path-manager resolvers; `skeletonLocalDir` is the
bundled template directory. -/
structure Env where
  cwd : String
  cwdFiles : List String
  urlParseOk : String → Bool
  lsRemoteOk : String → Bool
  cloneOk : String → Bool
  packageManager : Option String
  normalizePMForOS : Option String → Option String
  installOk : Bool
  writeEnvOk : Bool
  gitIgnorePath : String → String
  amplifyDirPath : String → String
  skeletonLocalDir : String

/-- The mutable state threaded through a run: the context object, the
process-wide feature-flag initialized bit, the pending deferred exit code (if
`exitOnNextTick` has been called), and the trace of events so far. -/
structure PState where
  ctx : Context
  ffInitDone : Bool
  pendingExit : Option Nat
  events : List Event
  deriving DecidableEq, Repr

/-- Appends one observable event to the trace. -/
def PState.emit (st : PState) (ev : Event) : PState :=
  { st with events := st.events ++ [ev] }

/-- Modelled from the spec: `exitOnNextTick` (from `amplify-cli-core`, not part
of the excerpt) schedules process termination with the given code for the next
scheduling tick rather than terminating immediately, so the current
synchronous stretch of code keeps running; the first scheduled exit wins. -/
def PState.scheduleExit (st : PState) (code : Nat) : PState :=
  match st.pendingExit with
  | some _ => st
  | none => { st with pendingExit := some code }

/-- Result of running a step: a normal return, a process termination (a
scheduled deferred exit that has taken effect at an await boundary), or a
JavaScript exception propagating to the caller. -/
inductive Res (α : Type) where
  | ok (st : PState) (a : α)
  | exited (st : PState) (code : Nat)
  | threw (st : PState) (e : JsError)
  deriving DecidableEq, Repr

/-- The state carried by a result, whichever way the run ended. -/
def Res.st {α : Type} : Res α → PState
  | .ok st _ => st
  | .exited st _ => st
  | .threw st _ => st

/-- The event trace carried by a result. -/
def Res.events {α : Type} (r : Res α) : List Event :=
  r.st.events

/-- The exit code when the run ended in a process termination. -/
def Res.exitCode {α : Type} : Res α → Option Nat
  | .exited _ c => some c
  | _ => none

/-- Fixed message printed before the sample-app branch starts. -/
def noteMsg : String := "Note: Amplify does not have knowledge of the url provided"

/-- Fixed message printed by `validateGithubRepo` on any failure. -/
def invalidUrlMsg : String := "Invalid remote github url"

/-- Fixed message printed by `cloneRepo` when the working directory is not
empty; also the message of the `NonEmptyDirectoryError` emitted to telemetry. -/
def nonEmptyDirMsg : String := "Please ensure you run this command in an empty directory"

/-- Fixed default editor identifier. -/
def vscodeEditor : String := "vscode"

/-- Fixed default environment name. -/
def sampledevEnv : String := "sampledev"

/-- First informational warning of `setLocalEnvDefaults`. -/
def editorMsg : String := "Setting default editor to vscode"

/-- Second informational warning of `setLocalEnvDefaults`. -/
def envNameMsg : String := "Setting environment to sampledev"

/-- Third informational warning of `setLocalEnvDefaults`. -/
def configureMsg : String := "Run amplify configure project to change the default configuration later"

/-- Embeds `validateGithubRepo(context, repoUrl)`: inside a try block it runs
`url.parse(repoUrl)` and then `execSync` of `git ls-remote` on the url; the
catch block prints the fixed message, emits the caught error to telemetry and
schedules a deferred exit with code 1.  The function always returns normally
to its caller. -/
def validateGithubRepo (env : Env) (repoUrl : String) (st : PState) : PState :=
  if env.urlParseOk repoUrl then
    let st1 := st.emit (.execLsRemote repoUrl)
    if env.lsRemoteOk repoUrl then
      st1
    else
      (((st1.emit (.printError invalidUrlMsg)).emit
          (.emitError (.lsRemoteError repoUrl))).scheduleExit 1)
  else
    (((st.emit (.printError invalidUrlMsg)).emit
        (.emitError (.urlParseError repoUrl))).scheduleExit 1)

/-- Embeds `cloneRepo(context, repoUrl)`: reads the working directory; if it
holds at least one entry it prints the fixed message, emits a
`NonEmptyDirectoryError` to telemetry and schedules a deferred exit with
code 1 — and then, because the source has no `return` in that branch, control
falls through to the try block, which invokes `execSync` of `git clone` into
the current directory unconditionally; a clone failure is caught, emitted to
telemetry and converted into a scheduled deferred exit with code 1.  The
function always returns normally to its caller. -/
def cloneRepo (env : Env) (repoUrl : String) (st : PState) : PState :=
  let st1 :=
    if 0 < env.cwdFiles.length then
      (((st.emit (.printError nonEmptyDirMsg)).emit
          (.emitError (.nonEmptyDirectoryError nonEmptyDirMsg))).scheduleExit 1)
    else
      st
  let st2 := st1.emit (.execClone repoUrl)
  if env.cloneOk repoUrl then
    st2
  else
    ((st2.emit (.emitError (.cloneError repoUrl))).scheduleExit 1)

/-- Embeds `installPackage()`: awaits the external detector
`getPackageManager` and normalizer `normalizePackageManagerForOS` (modelled
from the spec as the `Env` oracles; the await boundary lets a pending deferred
exit fire), then, only when a normalized package manager was determined,
invokes `execSync` of its install command; a failing install throws to the
caller — this step has no catch block. -/
def installPackage (env : Env) (st : PState) : Res Unit :=
  match st.pendingExit with
  | some c => .exited st c
  | none =>
    match env.normalizePMForOS env.packageManager with
    | some pm =>
      let st1 := st.emit (.execInstall pm)
      if env.installOk then .ok st1 () else .threw st1 (.installError pm)
    | none => .ok st ()

/-- The Local Environment Record built by `setLocalEnvDefaults`: the current
working directory, the fixed editor and the fixed environment name. -/
def sampleEnvInfo (env : Env) : LocalEnvInfo :=
  { projectPath := env.cwd, defaultEditor := vscodeEditor, envName := sampledevEnv }

/-- The context as rewritten by `setLocalEnvDefaults`: `exeInfo.localEnvInfo`
set to the freshly built record and `exeInfo.inputParams.amplify.envName` set
to the fixed environment name; every other field untouched. -/
def populateCtx (env : Env) (ctx : Context) : Context :=
  { ctx with
    exeInfo :=
      { ctx.exeInfo with
        localEnvInfo := some (sampleEnvInfo env)
        inputParams :=
          { ctx.exeInfo.inputParams with
            amplify :=
              { ctx.exeInfo.inputParams.amplify with envName := some sampledevEnv } } } }

/-- Embeds `setLocalEnvDefaults(context)`: prints the three informational
warnings, stores the freshly built record on `context.exeInfo.localEnvInfo`,
stores the environment name into `context.exeInfo.inputParams.amplify.envName`,
and then awaits `generateLocalEnvInfoFile(context)`.  Modelled from the spec:
`generateLocalEnvInfoFile` (step s9 of the init pipeline, not part of the
excerpt) is the persistence writer for the local environment record; it may
fail, and its failure propagates to the caller uncaught. -/
def setLocalEnvDefaults (env : Env) (st : PState) : Res Unit :=
  let st1 := ((st.emit (.printWarning editorMsg)).emit
      (.printWarning envNameMsg)).emit (.printWarning configureMsg)
  let st2 := { st1 with ctx := populateCtx env st1.ctx }
  let st3 := st2.emit (.writeLocalEnvInfo (sampleEnvInfo env))
  if env.writeEnvOk then .ok st3 () else .threw st3 .persistenceError

/-- Embeds `createAmplifySkeleton(context)`: inserts the amplify entry into the
git-ignore file at the path-manager-resolved path, copies the bundled skeleton
template directory into the path-manager-resolved amplify directory (awaited:
a pending deferred exit would fire at this boundary), then initializes the
feature-flag store.  Modelled from the spec: the `FeatureFlags` store (from
`amplify-cli-core`, not part of the excerpt) reports whether it is already
initialized; when it is not, its initialization reads the Local Environment
Record on demand through the `CLIContextEnvironmentProvider` callback and
marks the store initialized; `ensureDefaultFeatureFlags` then runs
unconditionally. -/
def createAmplifySkeleton (env : Env) (st : PState) : Res Unit :=
  let st1 := st.emit (.insertGitIgnore (env.gitIgnorePath env.cwd))
  let st2 := st1.emit (.copyDir env.skeletonLocalDir (env.amplifyDirPath env.cwd))
  match st2.pendingExit with
  | some c => .exited st2 c
  | none =>
    let st3 :=
      if st2.ffInitDone then
        st2
      else
        ({ st2 with ffInitDone := true }).emit (.ffInit st2.ctx.exeInfo.localEnvInfo)
    .ok (st3.emit .ffEnsureDefaults) ()

/-- Embeds the second `if` block of `preInitSetup` (the quickstart branch):
when the quickstart option is set, awaits `createAmplifySkeleton`, emits the
success telemetry event and schedules a deferred exit with code 0; the
function then returns the context. -/
def quickstartBlock (env : Env) (st : PState) : Res Context :=
  if st.ctx.options.quickstart then
    match createAmplifySkeleton env st with
    | .exited st1 c => .exited st1 c
    | .threw st1 e => .threw st1 e
    | .ok st1 _ =>
      let st2 := (st1.emit .emitSuccess).scheduleExit 0
      .ok st2 st2.ctx
  else
    .ok st st.ctx

/-- Embeds `preInitSetup(context)`: when the app option is present it prints
the note warning and awaits, in order, `validateGithubRepo`, `cloneRepo`,
`installPackage` and `setLocalEnvDefaults` — after each await, a deferred exit
scheduled by the completed step fires before the next step starts (modelled
from the spec: pending `exitOnNextTick` terminations take effect at the next
scheduling tick, before the awaiting caller resumes).  It then runs the
quickstart block and finally returns the context object. -/
def preInitSetup (env : Env) (st : PState) : Res Context :=
  match st.ctx.options.app with
  | some repoUrl =>
    let stA := st.emit (.printWarning noteMsg)
    let stB := validateGithubRepo env repoUrl stA
    match stB.pendingExit with
    | some c => .exited stB c
    | none =>
      let stC := cloneRepo env repoUrl stB
      match stC.pendingExit with
      | some c => .exited stC c
      | none =>
        match installPackage env stC with
        | .exited st1 c => .exited st1 c
        | .threw st1 e => .threw st1 e
        | .ok stD _ =>
          match setLocalEnvDefaults env stD with
          | .exited st1 c => .exited st1 c
          | .threw st1 e => .threw st1 e
          | .ok stE _ =>
            match stE.pendingExit with
            | some c => .exited stE c
            | none => quickstartBlock env stE
  | none => quickstartBlock env st

/-- The initial state of one process invocation: the caller-supplied context,
the process-wide feature-flag bit (true when some earlier code already
initialized the store), no pending exit and an empty trace. -/
def initialState (ctx : Context) (ff : Bool) : PState :=
  { ctx := ctx, ffInitDone := ff, pendingExit := none, events := [] }

/-- Runs `preInitSetup` as the process-level entry point.  Modelled from the
spec: when control returns to the event loop after `preInitSetup` resolves, a
pending deferred exit terminates the process with its code. -/
def run (env : Env) (ctx : Context) (ff : Bool) : Res Context :=
  match preInitSetup env (initialState ctx ff) with
  | .ok st c =>
    match st.pendingExit with
    | some code => .exited st code
    | none => .ok st c
  | .exited st c => .exited st c
  | .threw st e => .threw st e

/-- The subprocess events of `installPackage` when it completes: one install
invocation when a normalized package manager was determined, none otherwise. -/
def installEvents (env : Env) : List Event :=
  match env.normalizePMForOS env.packageManager with
  | some pm => [.execInstall pm]
  | none => []

/-- The events of `setLocalEnvDefaults`: the three warnings followed by the
persistence write of the fully built record. -/
def localEnvEvents (env : Env) : List Event :=
  [.printWarning editorMsg, .printWarning envNameMsg, .printWarning configureMsg,
    .writeLocalEnvInfo (sampleEnvInfo env)]

/-- The full event trace of a successful sample-app branch on url `u`. -/
def appSuccessEvents (env : Env) (u : String) : List Event :=
  [.printWarning noteMsg, .execLsRemote u, .execClone u] ++
    installEvents env ++ localEnvEvents env

/-- The events of one completed `createAmplifySkeleton` call: ignore-file
insertion, skeleton copy, the feature-flag initialization (reading `readVal`
through the provider) when the store was not yet initialized, and the
defaults-ensuring call. -/
def skeletonEvents (env : Env) (readVal : Option LocalEnvInfo) (ff : Bool) : List Event :=
  [.insertGitIgnore (env.gitIgnorePath env.cwd),
    .copyDir env.skeletonLocalDir (env.amplifyDirPath env.cwd)] ++
    (if ff then [] else [.ffInit readVal]) ++ [.ffEnsureDefaults]
/-- Case analysis of `preInitSetup`: app mode with a url that `url.parse`
rejects. -/
theorem preInit_badParse (env : Env) (ctx : Context) (ff : Bool) (u : String)
    (happ : ctx.options.app = some u) (hp : env.urlParseOk u = false) :
    preInitSetup env (initialState ctx ff) =
      .exited ⟨ctx, ff, some 1,
        [.printWarning noteMsg, .printError invalidUrlMsg,
          .emitError (.urlParseError u)]⟩ 1 := by
  simp [preInitSetup, initialState, validateGithubRepo, PState.emit,
    PState.scheduleExit, happ, hp]

/-- Case analysis of `preInitSetup`: app mode with a parseable url whose
`git ls-remote` probe fails. -/
theorem preInit_badRemote (env : Env) (ctx : Context) (ff : Bool) (u : String)
    (happ : ctx.options.app = some u) (hp : env.urlParseOk u = true)
    (hl : env.lsRemoteOk u = false) :
    preInitSetup env (initialState ctx ff) =
      .exited ⟨ctx, ff, some 1,
        [.printWarning noteMsg, .execLsRemote u, .printError invalidUrlMsg,
          .emitError (.lsRemoteError u)]⟩ 1 := by
  simp [preInitSetup, initialState, validateGithubRepo, PState.emit,
    PState.scheduleExit, happ, hp, hl]

/-- Case analysis of `preInitSetup`: app mode, validation passes, but the
working directory is not empty and the fall-through clone succeeds anyway.
The trace shows the clone invocation happening after the scheduled exit. -/
theorem preInit_nonEmptyDir_cloneOk (env : Env) (ctx : Context) (ff : Bool) (u : String)
    (happ : ctx.options.app = some u) (hp : env.urlParseOk u = true)
    (hl : env.lsRemoteOk u = true) (hf : env.cwdFiles ≠ [])
    (hc : env.cloneOk u = true) :
    preInitSetup env (initialState ctx ff) =
      .exited ⟨ctx, ff, some 1,
        [.printWarning noteMsg, .execLsRemote u, .printError nonEmptyDirMsg,
          .emitError (.nonEmptyDirectoryError nonEmptyDirMsg), .execClone u]⟩ 1 := by
  simp [preInitSetup, initialState, validateGithubRepo, cloneRepo,
    PState.emit, PState.scheduleExit, happ, hp, hl, hc, List.length_pos, hf]

/-- Case analysis of `preInitSetup`: app mode, validation passes, the working
directory is not empty and the fall-through clone also fails, so a second
telemetry error is emitted. -/
theorem preInit_nonEmptyDir_cloneFails (env : Env) (ctx : Context) (ff : Bool) (u : String)
    (happ : ctx.options.app = some u) (hp : env.urlParseOk u = true)
    (hl : env.lsRemoteOk u = true) (hf : env.cwdFiles ≠ [])
    (hc : env.cloneOk u = false) :
    preInitSetup env (initialState ctx ff) =
      .exited ⟨ctx, ff, some 1,
        [.printWarning noteMsg, .execLsRemote u, .printError nonEmptyDirMsg,
          .emitError (.nonEmptyDirectoryError nonEmptyDirMsg), .execClone u,
          .emitError (.cloneError u)]⟩ 1 := by
  simp [preInitSetup, initialState, validateGithubRepo, cloneRepo,
    PState.emit, PState.scheduleExit, happ, hp, hl, hc, List.length_pos, hf]

/-- Case analysis of `preInitSetup`: app mode, validation passes, the working
directory is empty, and the clone invocation fails. -/
theorem preInit_emptyDir_cloneFails (env : Env) (ctx : Context) (ff : Bool) (u : String)
    (happ : ctx.options.app = some u) (hp : env.urlParseOk u = true)
    (hl : env.lsRemoteOk u = true) (hf : env.cwdFiles = [])
    (hc : env.cloneOk u = false) :
    preInitSetup env (initialState ctx ff) =
      .exited ⟨ctx, ff, some 1,
        [.printWarning noteMsg, .execLsRemote u, .execClone u,
          .emitError (.cloneError u)]⟩ 1 := by
  simp [preInitSetup, initialState, validateGithubRepo, cloneRepo,
    PState.emit, PState.scheduleExit, happ, hp, hl, hc, hf]

/-- Case analysis of `preInitSetup`: app mode, validation and clone succeed, a
normalized package manager is determined and its install invocation fails, so
the exception propagates uncaught out of the pipeline. -/
theorem preInit_installFails (env : Env) (ctx : Context) (ff : Bool) (u : String) (pm : String)
    (happ : ctx.options.app = some u) (hp : env.urlParseOk u = true)
    (hl : env.lsRemoteOk u = true) (hf : env.cwdFiles = [])
    (hc : env.cloneOk u = true)
    (hm : env.normalizePMForOS env.packageManager = some pm)
    (hi : env.installOk = false) :
    preInitSetup env (initialState ctx ff) =
      .threw ⟨ctx, ff, none,
        [.printWarning noteMsg, .execLsRemote u, .execClone u, .execInstall pm]⟩
        (.installError pm) := by
  simp [preInitSetup, initialState, validateGithubRepo, cloneRepo,
    installPackage, PState.emit, PState.scheduleExit, happ, hp, hl, hc, hf, hm, hi]

/-- Case analysis of `preInitSetup`: app mode, validation, clone and install
(when one runs) succeed, and the persistence write of the local environment
record fails, so the exception propagates uncaught out of the pipeline. -/
theorem preInit_persistFails (env : Env) (ctx : Context) (ff : Bool) (u : String)
    (happ : ctx.options.app = some u) (hp : env.urlParseOk u = true)
    (hl : env.lsRemoteOk u = true) (hf : env.cwdFiles = [])
    (hc : env.cloneOk u = true)
    (hi : env.normalizePMForOS env.packageManager = none ∨ env.installOk = true)
    (hw : env.writeEnvOk = false) :
    preInitSetup env (initialState ctx ff) =
      .threw ⟨populateCtx env ctx, ff, none,
        [.printWarning noteMsg, .execLsRemote u, .execClone u] ++
          installEvents env ++ localEnvEvents env⟩
        .persistenceError := by
  rcases hm : env.normalizePMForOS env.packageManager with _ | pm
  · simp [preInitSetup, initialState, validateGithubRepo, cloneRepo,
      installPackage, setLocalEnvDefaults, installEvents, localEnvEvents,
      PState.emit, PState.scheduleExit, happ, hp, hl, hc, hf, hm, hw]
  · rcases hi with hi | hi
    · simp [hm] at hi
    · simp [preInitSetup, initialState, validateGithubRepo, cloneRepo,
        installPackage, setLocalEnvDefaults, installEvents, localEnvEvents,
        PState.emit, PState.scheduleExit, happ, hp, hl, hc, hf, hm, hi, hw]

/-- Case analysis of `preInitSetup`: the whole sample-app branch succeeds and
the quickstart option is not set, so the populated context is returned with no
pending exit. -/
theorem preInit_appSuccess_noQuickstart (env : Env) (ctx : Context) (ff : Bool) (u : String)
    (happ : ctx.options.app = some u) (hq : ctx.options.quickstart = false)
    (hp : env.urlParseOk u = true) (hl : env.lsRemoteOk u = true)
    (hf : env.cwdFiles = []) (hc : env.cloneOk u = true)
    (hi : env.normalizePMForOS env.packageManager = none ∨ env.installOk = true)
    (hw : env.writeEnvOk = true) :
    preInitSetup env (initialState ctx ff) =
      .ok ⟨populateCtx env ctx, ff, none, appSuccessEvents env u⟩
        (populateCtx env ctx) := by
  have hq' : (populateCtx env ctx).options.quickstart = false := by
    simp [populateCtx, hq]
  rcases hm : env.normalizePMForOS env.packageManager with _ | pm
  · simp [preInitSetup, initialState, validateGithubRepo, cloneRepo,
      installPackage, setLocalEnvDefaults, quickstartBlock, appSuccessEvents,
      installEvents, localEnvEvents, PState.emit, PState.scheduleExit,
      happ, hp, hl, hc, hf, hm, hw, hq']
  · rcases hi with hi | hi
    · simp [hm] at hi
    · simp [preInitSetup, initialState, validateGithubRepo, cloneRepo,
        installPackage, setLocalEnvDefaults, quickstartBlock, appSuccessEvents,
        installEvents, localEnvEvents, PState.emit, PState.scheduleExit,
        happ, hp, hl, hc, hf, hm, hi, hw, hq']

/-- Case analysis of `preInitSetup`: the whole sample-app branch succeeds and
the quickstart option is also set, so the skeleton generator runs on the
populated context, success telemetry is emitted, an exit with code 0 is
scheduled, and the populated context is still returned. -/
theorem preInit_appSuccess_quickstart (env : Env) (ctx : Context) (ff : Bool) (u : String)
    (happ : ctx.options.app = some u) (hq : ctx.options.quickstart = true)
    (hp : env.urlParseOk u = true) (hl : env.lsRemoteOk u = true)
    (hf : env.cwdFiles = []) (hc : env.cloneOk u = true)
    (hi : env.normalizePMForOS env.packageManager = none ∨ env.installOk = true)
    (hw : env.writeEnvOk = true) :
    preInitSetup env (initialState ctx ff) =
      .ok ⟨populateCtx env ctx, true, some 0,
        appSuccessEvents env u ++
          skeletonEvents env (some (sampleEnvInfo env)) ff ++ [.emitSuccess]⟩
        (populateCtx env ctx) := by
  have hq' : (populateCtx env ctx).options.quickstart = true := by
    simp [populateCtx, hq]
  have henv : (populateCtx env ctx).exeInfo.localEnvInfo = some (sampleEnvInfo env) := by
    simp [populateCtx]
  rcases hm : env.normalizePMForOS env.packageManager with _ | pm <;>
    [skip; rcases hi with hi | hi] <;>
    [skip; simp [hm] at hi; skip] <;>
    cases ff <;>
    simp [preInitSetup, initialState, validateGithubRepo, cloneRepo,
      installPackage, setLocalEnvDefaults, quickstartBlock, createAmplifySkeleton,
      appSuccessEvents, installEvents, localEnvEvents, skeletonEvents,
      PState.emit, PState.scheduleExit,
      happ, hp, hl, hc, hf, hm, hi, hw, hq', henv]

/-- Case analysis of `preInitSetup`: neither trigger option is present, so the
orchestrator is a no-op that returns the context unchanged with an empty
trace. -/
theorem preInit_noOptions (env : Env) (ctx : Context) (ff : Bool)
    (happ : ctx.options.app = none) (hq : ctx.options.quickstart = false) :
    preInitSetup env (initialState ctx ff) = .ok ⟨ctx, ff, none, []⟩ ctx := by
  simp [preInitSetup, initialState, quickstartBlock, happ, hq]

/-- Case analysis of `preInitSetup`: quickstart-only mode.  The skeleton
generator runs on the caller-supplied context — the feature-flag provider
reads whatever `exeInfo.localEnvInfo` the caller passed in — then success
telemetry is emitted, an exit with code 0 is scheduled, and the unchanged
context is returned. -/
theorem preInit_quickstartOnly (env : Env) (ctx : Context) (ff : Bool)
    (happ : ctx.options.app = none) (hq : ctx.options.quickstart = true) :
    preInitSetup env (initialState ctx ff) =
      .ok ⟨ctx, true, some 0,
        skeletonEvents env ctx.exeInfo.localEnvInfo ff ++ [.emitSuccess]⟩ ctx := by
  cases ff <;>
    simp [preInitSetup, initialState, quickstartBlock, createAmplifySkeleton,
      skeletonEvents, PState.emit, PState.scheduleExit, happ, hq]

/-- Process-level corollary of `preInit_badParse`. -/
theorem run_badParse (env : Env) (ctx : Context) (ff : Bool) (u : String)
    (happ : ctx.options.app = some u) (hp : env.urlParseOk u = false) :
    run env ctx ff =
      .exited ⟨ctx, ff, some 1,
        [.printWarning noteMsg, .printError invalidUrlMsg,
          .emitError (.urlParseError u)]⟩ 1 := by
  have h := preInit_badParse env ctx ff u happ hp
  simp [run, h]

/-- Process-level corollary of `preInit_badRemote`. -/
theorem run_badRemote (env : Env) (ctx : Context) (ff : Bool) (u : String)
    (happ : ctx.options.app = some u) (hp : env.urlParseOk u = true)
    (hl : env.lsRemoteOk u = false) :
    run env ctx ff =
      .exited ⟨ctx, ff, some 1,
        [.printWarning noteMsg, .execLsRemote u, .printError invalidUrlMsg,
          .emitError (.lsRemoteError u)]⟩ 1 := by
  have h := preInit_badRemote env ctx ff u happ hp hl
  simp [run, h]

/-- Process-level corollary of `preInit_nonEmptyDir_cloneOk`. -/
theorem run_nonEmptyDir_cloneOk (env : Env) (ctx : Context) (ff : Bool) (u : String)
    (happ : ctx.options.app = some u) (hp : env.urlParseOk u = true)
    (hl : env.lsRemoteOk u = true) (hf : env.cwdFiles ≠ [])
    (hc : env.cloneOk u = true) :
    run env ctx ff =
      .exited ⟨ctx, ff, some 1,
        [.printWarning noteMsg, .execLsRemote u, .printError nonEmptyDirMsg,
          .emitError (.nonEmptyDirectoryError nonEmptyDirMsg), .execClone u]⟩ 1 := by
  have h := preInit_nonEmptyDir_cloneOk env ctx ff u happ hp hl hf hc
  simp [run, h]

/-- Process-level corollary of `preInit_nonEmptyDir_cloneFails`. -/
theorem run_nonEmptyDir_cloneFails (env : Env) (ctx : Context) (ff : Bool) (u : String)
    (happ : ctx.options.app = some u) (hp : env.urlParseOk u = true)
    (hl : env.lsRemoteOk u = true) (hf : env.cwdFiles ≠ [])
    (hc : env.cloneOk u = false) :
    run env ctx ff =
      .exited ⟨ctx, ff, some 1,
        [.printWarning noteMsg, .execLsRemote u, .printError nonEmptyDirMsg,
          .emitError (.nonEmptyDirectoryError nonEmptyDirMsg), .execClone u,
          .emitError (.cloneError u)]⟩ 1 := by
  have h := preInit_nonEmptyDir_cloneFails env ctx ff u happ hp hl hf hc
  simp [run, h]

/-- Process-level corollary of `preInit_emptyDir_cloneFails`. -/
theorem run_emptyDir_cloneFails (env : Env) (ctx : Context) (ff : Bool) (u : String)
    (happ : ctx.options.app = some u) (hp : env.urlParseOk u = true)
    (hl : env.lsRemoteOk u = true) (hf : env.cwdFiles = [])
    (hc : env.cloneOk u = false) :
    run env ctx ff =
      .exited ⟨ctx, ff, some 1,
        [.printWarning noteMsg, .execLsRemote u, .execClone u,
          .emitError (.cloneError u)]⟩ 1 := by
  have h := preInit_emptyDir_cloneFails env ctx ff u happ hp hl hf hc
  simp [run, h]

/-- Process-level corollary of `preInit_installFails`. -/
theorem run_installFails (env : Env) (ctx : Context) (ff : Bool) (u : String) (pm : String)
    (happ : ctx.options.app = some u) (hp : env.urlParseOk u = true)
    (hl : env.lsRemoteOk u = true) (hf : env.cwdFiles = [])
    (hc : env.cloneOk u = true)
    (hm : env.normalizePMForOS env.packageManager = some pm)
    (hi : env.installOk = false) :
    run env ctx ff =
      .threw ⟨ctx, ff, none,
        [.printWarning noteMsg, .execLsRemote u, .execClone u, .execInstall pm]⟩
        (.installError pm) := by
  have h := preInit_installFails env ctx ff u pm happ hp hl hf hc hm hi
  simp [run, h]

/-- Process-level corollary of `preInit_persistFails`. -/
theorem run_persistFails (env : Env) (ctx : Context) (ff : Bool) (u : String)
    (happ : ctx.options.app = some u) (hp : env.urlParseOk u = true)
    (hl : env.lsRemoteOk u = true) (hf : env.cwdFiles = [])
    (hc : env.cloneOk u = true)
    (hi : env.normalizePMForOS env.packageManager = none ∨ env.installOk = true)
    (hw : env.writeEnvOk = false) :
    run env ctx ff =
      .threw ⟨populateCtx env ctx, ff, none,
        [.printWarning noteMsg, .execLsRemote u, .execClone u] ++
          installEvents env ++ localEnvEvents env⟩
        .persistenceError := by
  have h := preInit_persistFails env ctx ff u happ hp hl hf hc hi hw
  simp [run, h]

/-- Process-level corollary of `preInit_appSuccess_noQuickstart`: the process
keeps running and the populated context is handed back to the caller. -/
theorem run_appSuccess_noQuickstart (env : Env) (ctx : Context) (ff : Bool) (u : String)
    (happ : ctx.options.app = some u) (hq : ctx.options.quickstart = false)
    (hp : env.urlParseOk u = true) (hl : env.lsRemoteOk u = true)
    (hf : env.cwdFiles = []) (hc : env.cloneOk u = true)
    (hi : env.normalizePMForOS env.packageManager = none ∨ env.installOk = true)
    (hw : env.writeEnvOk = true) :
    run env ctx ff =
      .ok ⟨populateCtx env ctx, ff, none, appSuccessEvents env u⟩
        (populateCtx env ctx) := by
  have h := preInit_appSuccess_noQuickstart env ctx ff u happ hq hp hl hf hc hi hw
  simp [run, h]

/-- Process-level corollary of `preInit_appSuccess_quickstart`: the deferred
exit scheduled by the quickstart block fires when control returns to the event
loop, terminating the process with code 0. -/
theorem run_appSuccess_quickstart (env : Env) (ctx : Context) (ff : Bool) (u : String)
    (happ : ctx.options.app = some u) (hq : ctx.options.quickstart = true)
    (hp : env.urlParseOk u = true) (hl : env.lsRemoteOk u = true)
    (hf : env.cwdFiles = []) (hc : env.cloneOk u = true)
    (hi : env.normalizePMForOS env.packageManager = none ∨ env.installOk = true)
    (hw : env.writeEnvOk = true) :
    run env ctx ff =
      .exited ⟨populateCtx env ctx, true, some 0,
        appSuccessEvents env u ++
          skeletonEvents env (some (sampleEnvInfo env)) ff ++ [.emitSuccess]⟩ 0 := by
  have h := preInit_appSuccess_quickstart env ctx ff u happ hq hp hl hf hc hi hw
  simp [run, h]

/-- Process-level corollary of `preInit_noOptions`. -/
theorem run_noOptions (env : Env) (ctx : Context) (ff : Bool)
    (happ : ctx.options.app = none) (hq : ctx.options.quickstart = false) :
    run env ctx ff = .ok ⟨ctx, ff, none, []⟩ ctx := by
  have h := preInit_noOptions env ctx ff happ hq
  simp [run, h]

/-- Process-level corollary of `preInit_quickstartOnly`: the deferred exit
fires at the event loop, terminating the process with code 0. -/
theorem run_quickstartOnly (env : Env) (ctx : Context) (ff : Bool)
    (happ : ctx.options.app = none) (hq : ctx.options.quickstart = true) :
    run env ctx ff =
      .exited ⟨ctx, true, some 0,
        skeletonEvents env ctx.exeInfo.localEnvInfo ff ++ [.emitSuccess]⟩ 0 := by
  have h := preInit_quickstartOnly env ctx ff happ hq
  simp [run, h]

/-- Is the event a telemetry error emission. -/
def Event.isEmitError : Event → Bool
  | .emitError _ => true
  | _ => false

/-- Is the event an error message printed to the user. -/
def Event.isPrintError : Event → Bool
  | .printError _ => true
  | _ => false

/-- Is the event the telemetry success emission. -/
def Event.isEmitSuccess : Event → Bool
  | .emitSuccess => true
  | _ => false

/-- Is the event an invocation of the clone command. -/
def Event.isExecClone : Event → Bool
  | .execClone _ => true
  | _ => false

/-- Is the event an invocation of a package-manager install command. -/
def Event.isExecInstall : Event → Bool
  | .execInstall _ => true
  | _ => false

/-- Is the event any subprocess invocation. -/
def Event.isExec : Event → Bool
  | .execLsRemote _ => true
  | .execClone _ => true
  | .execInstall _ => true
  | _ => false

/-- Is the event a filesystem write performed by this module: persisting the
local environment record, copying the skeleton tree, or editing the
ignore file. -/
def Event.isFileWrite : Event → Bool
  | .writeLocalEnvInfo _ => true
  | .copyDir _ _ => true
  | .insertGitIgnore _ => true
  | _ => false

/-- Is the event the feature-flag store initialization. -/
def Event.isFfInitEv : Event → Bool
  | .ffInit _ => true
  | _ => false

/-- Is the event the `ensureDefaultFeatureFlags` call. -/
def Event.isFfEnsure : Event → Bool
  | .ffEnsureDefaults => true
  | _ => false

/-- Is the error one of the three locally-caught failure kinds of the
propagation policy: invalid remote url (either the parse or the ls-remote
probe), non-empty directory, or clone failure. -/
def JsError.isCaughtKind : JsError → Bool
  | .urlParseError _ => true
  | .lsRemoteError _ => true
  | .cloneError _ => true
  | .nonEmptyDirectoryError _ => true
  | _ => false

@[simp]
theorem PState.emit_ctx (st : PState) (ev : Event) : (st.emit ev).ctx = st.ctx := rfl

@[simp]
theorem PState.emit_pendingExit (st : PState) (ev : Event) :
    (st.emit ev).pendingExit = st.pendingExit := rfl

@[simp]
theorem PState.emit_ffInitDone (st : PState) (ev : Event) :
    (st.emit ev).ffInitDone = st.ffInitDone := rfl

@[simp]
theorem PState.scheduleExit_ctx (st : PState) (c : Nat) :
    (st.scheduleExit c).ctx = st.ctx := by
  unfold PState.scheduleExit
  split <;> rfl

/-- `validateGithubRepo` never touches the context object. -/
theorem validateGithubRepo_ctx (env : Env) (u : String) (st : PState) :
    (validateGithubRepo env u st).ctx = st.ctx := by
  unfold validateGithubRepo
  split_ifs <;> simp

/-- `cloneRepo` never touches the context object. -/
theorem cloneRepo_ctx (env : Env) (u : String) (st : PState) :
    (cloneRepo env u st).ctx = st.ctx := by
  unfold cloneRepo
  split_ifs <;> simp

/-- `installPackage` never touches the context object. -/
theorem installPackage_ctx (env : Env) (st : PState) :
    (installPackage env st).st.ctx = st.ctx := by
  unfold installPackage
  rcases st.pendingExit with _ | c
  · rcases env.normalizePMForOS env.packageManager with _ | pm
    · simp [Res.st]
    · split_ifs <;> simp [Res.st]
  · simp [Res.st]

/-- Complete description of the state after `setLocalEnvDefaults`, whether the
persistence write succeeds or throws: the context is rewritten by
`populateCtx` and the three warnings plus the persistence write are
appended. -/
theorem setLocalEnvDefaults_st (env : Env) (st : PState) :
    (setLocalEnvDefaults env st).st =
      ⟨populateCtx env st.ctx, st.ffInitDone, st.pendingExit,
        st.events ++ localEnvEvents env⟩ := by
  cases hw : env.writeEnvOk <;>
    simp [setLocalEnvDefaults, localEnvEvents, PState.emit, Res.st, hw]

/-- A `createAmplifySkeleton` call entered with no pending exit completes
normally, marks the feature-flag store initialized, and appends exactly the
skeleton events, reading the current `exeInfo.localEnvInfo` through the
provider when the store was not yet initialized. -/
theorem createAmplifySkeleton_ok (env : Env) (st : PState)
    (h : st.pendingExit = none) :
    createAmplifySkeleton env st =
      .ok ⟨st.ctx, true, none,
        st.events ++ skeletonEvents env st.ctx.exeInfo.localEnvInfo st.ffInitDone⟩ () := by
  cases hff : st.ffInitDone <;>
    simp [createAmplifySkeleton, skeletonEvents, PState.emit, h, hff]

/-- `createAmplifySkeleton` never touches the context object. -/
theorem createAmplifySkeleton_ctx (env : Env) (st : PState) :
    (createAmplifySkeleton env st).st.ctx = st.ctx := by
  unfold createAmplifySkeleton
  rcases h : st.pendingExit with _ | c
  · cases hff : st.ffInitDone <;> simp [PState.emit, Res.st, h, hff]
  · simp [PState.emit, Res.st, h]

/-- The quickstart block never touches the context object. -/
theorem quickstartBlock_ctx (env : Env) (st : PState) :
    (quickstartBlock env st).st.ctx = st.ctx := by
  unfold quickstartBlock
  split_ifs
  · rcases h : createAmplifySkeleton env st with ⟨st1, a⟩ | ⟨st1, c⟩ | ⟨st1, e⟩ <;>
      have h1 := createAmplifySkeleton_ctx env st <;>
      rw [h] at h1 <;>
      simp [Res.st] at h1
    · rcases hp : st1.pendingExit with _ | v <;>
        simp [Res.st, PState.emit, PState.scheduleExit, hp, h1]
    · simp [Res.st, h1]
    · simp [Res.st, h1]
  · simp [Res.st]

/-- When the quickstart block returns normally, the value it returns is the
context carried by its final state. -/
theorem quickstartBlock_ok_val (env : Env) (st st' : PState) (c : Context)
    (h : quickstartBlock env st = .ok st' c) : c = st'.ctx := by
  unfold quickstartBlock at h
  split_ifs at h
  · rcases hs : createAmplifySkeleton env st with ⟨st1, a⟩ | ⟨st1, cc⟩ | ⟨st1, e⟩ <;>
      rw [hs] at h
    · injection h with h1 h2
      subst h1
      subst h2
      rfl
    · exact Res.noConfusion h
    · exact Res.noConfusion h
  · injection h with h1 h2
    subst h1
    subst h2
    rfl

/-- Runs the skeleton generator `createAmplifySkeleton` the given number of
times within one process, threading the process state and stopping at the
first non-normal outcome. -/
def iterSkeleton (env : Env) : Nat → PState → Res Unit
  | 0, st => .ok st ()
  | n + 1, st =>
    match createAmplifySkeleton env st with
    | .ok st1 _ => iterSkeleton env n st1
    | .exited st1 c => .exited st1 c
    | .threw st1 e => .threw st1 e

/-- The events appended by `n` consecutive skeleton-generator invocations
whose first one starts with feature-flag bit `ff`. -/
def iterEvents (env : Env) (readVal : Option LocalEnvInfo) (ff : Bool) : Nat → List Event
  | 0 => []
  | n + 1 => skeletonEvents env readVal ff ++ iterEvents env readVal true n

/-- Complete description of `n` skeleton-generator invocations entered with
no pending exit: they all complete normally, the context is untouched, the
feature-flag bit ends true as soon as one invocation ran, and the appended
events are `iterEvents`. -/
theorem iterSkeleton_eq (env : Env) :
    ∀ (n : Nat) (st : PState), st.pendingExit = none →
    iterSkeleton env n st =
      .ok ⟨st.ctx, (if n = 0 then st.ffInitDone else true), none,
        st.events ++ iterEvents env st.ctx.exeInfo.localEnvInfo st.ffInitDone n⟩ () := by
  intro n
  induction n with
  | zero =>
    intro st h
    rcases st with ⟨c, f, p, e⟩
    simp at h
    simp [iterSkeleton, iterEvents, h]
  | succ n ih =>
    intro st h
    rw [iterSkeleton, createAmplifySkeleton_ok env st h]
    dsimp only
    rw [ih ⟨st.ctx, true, none,
      st.events ++ skeletonEvents env st.ctx.exeInfo.localEnvInfo st.ffInitDone⟩ rfl]
    cases hn : n with
    | zero => simp [iterEvents, hn]
    | succ m => simp [iterEvents]

/-- Counting feature-flag initializations in the skeleton events of one
invocation: one if the store was uninitialized, none otherwise. -/
theorem skeletonEvents_countP_ffInit (env : Env) (r : Option LocalEnvInfo) (ff : Bool) :
    (skeletonEvents env r ff).countP (fun ev => Event.isFfInitEv ev) = if ff then 0 else 1 := by
  cases ff <;>
    simp [skeletonEvents, Event.isFfInitEv, List.countP_cons, List.countP_append]

/-- Each skeleton-generator invocation contains exactly one
`ensureDefaultFeatureFlags` call. -/
theorem skeletonEvents_countP_ffEnsure (env : Env) (r : Option LocalEnvInfo) (ff : Bool) :
    (skeletonEvents env r ff).countP (fun ev => Event.isFfEnsure ev) = 1 := by
  cases ff <;>
    simp [skeletonEvents, Event.isFfEnsure, Event.isFfInitEv,
      List.countP_cons, List.countP_append]

/-- Counting feature-flag initializations across `n` invocations: at most one,
and none at all when the store already reported itself initialized. -/
theorem iterEvents_countP_ffInit (env : Env) (r : Option LocalEnvInfo) :
    ∀ (n : Nat) (ff : Bool),
    (iterEvents env r ff n).countP (fun ev => Event.isFfInitEv ev) =
      if ff ∨ n = 0 then 0 else 1 := by
  intro n
  induction n with
  | zero => intro ff; simp [iterEvents]
  | succ n ih =>
    intro ff
    rw [iterEvents, List.countP_append, skeletonEvents_countP_ffInit, ih true]
    cases ff <;> simp

/-- Counting `ensureDefaultFeatureFlags` calls across `n` invocations:
exactly `n`. -/
theorem iterEvents_countP_ffEnsure (env : Env) (r : Option LocalEnvInfo) :
    ∀ (n : Nat) (ff : Bool),
    (iterEvents env r ff n).countP (fun ev => Event.isFfEnsure ev) = n := by
  intro n
  induction n with
  | zero => intro ff; simp [iterEvents]
  | succ n ih =>
    intro ff
    rw [iterEvents, List.countP_append, skeletonEvents_countP_ffEnsure, ih true]
    omega

/-- Exhaustive case analysis of one `preInitSetup` invocation: every run falls
into one of the shapes established by the case lemmas. -/
theorem preInit_total (env : Env) (ctx : Context) (ff : Bool) :
    (ctx.options.app = none ∧ ctx.options.quickstart = false ∧
      preInitSetup env (initialState ctx ff) = .ok ⟨ctx, ff, none, []⟩ ctx) ∨
    (ctx.options.app = none ∧ ctx.options.quickstart = true ∧
      preInitSetup env (initialState ctx ff) =
        .ok ⟨ctx, true, some 0,
          skeletonEvents env ctx.exeInfo.localEnvInfo ff ++ [.emitSuccess]⟩ ctx) ∨
    (∃ u, ctx.options.app = some u ∧
      (preInitSetup env (initialState ctx ff) =
          .exited ⟨ctx, ff, some 1,
            [.printWarning noteMsg, .printError invalidUrlMsg,
              .emitError (.urlParseError u)]⟩ 1 ∨
        preInitSetup env (initialState ctx ff) =
          .exited ⟨ctx, ff, some 1,
            [.printWarning noteMsg, .execLsRemote u, .printError invalidUrlMsg,
              .emitError (.lsRemoteError u)]⟩ 1 ∨
        preInitSetup env (initialState ctx ff) =
          .exited ⟨ctx, ff, some 1,
            [.printWarning noteMsg, .execLsRemote u, .printError nonEmptyDirMsg,
              .emitError (.nonEmptyDirectoryError nonEmptyDirMsg), .execClone u]⟩ 1 ∨
        preInitSetup env (initialState ctx ff) =
          .exited ⟨ctx, ff, some 1,
            [.printWarning noteMsg, .execLsRemote u, .printError nonEmptyDirMsg,
              .emitError (.nonEmptyDirectoryError nonEmptyDirMsg), .execClone u,
              .emitError (.cloneError u)]⟩ 1 ∨
        preInitSetup env (initialState ctx ff) =
          .exited ⟨ctx, ff, some 1,
            [.printWarning noteMsg, .execLsRemote u, .execClone u,
              .emitError (.cloneError u)]⟩ 1 ∨
        (∃ pm, preInitSetup env (initialState ctx ff) =
          .threw ⟨ctx, ff, none,
            [.printWarning noteMsg, .execLsRemote u, .execClone u, .execInstall pm]⟩
            (.installError pm)) ∨
        preInitSetup env (initialState ctx ff) =
          .threw ⟨populateCtx env ctx, ff, none,
            [.printWarning noteMsg, .execLsRemote u, .execClone u] ++
              installEvents env ++ localEnvEvents env⟩ .persistenceError ∨
        (ctx.options.quickstart = false ∧
          preInitSetup env (initialState ctx ff) =
            .ok ⟨populateCtx env ctx, ff, none, appSuccessEvents env u⟩
              (populateCtx env ctx)) ∨
        (ctx.options.quickstart = true ∧
          preInitSetup env (initialState ctx ff) =
            .ok ⟨populateCtx env ctx, true, some 0,
              appSuccessEvents env u ++
                skeletonEvents env (some (sampleEnvInfo env)) ff ++ [.emitSuccess]⟩
              (populateCtx env ctx)))) := by
  rcases happ : ctx.options.app with _ | u
  · cases hq : ctx.options.quickstart
    · exact Or.inl ⟨rfl, rfl, preInit_noOptions env ctx ff happ hq⟩
    · exact Or.inr (Or.inl ⟨rfl, rfl, preInit_quickstartOnly env ctx ff happ hq⟩)
  · refine Or.inr (Or.inr ⟨u, rfl, ?_⟩)
    cases hp : env.urlParseOk u
    · exact Or.inl (preInit_badParse env ctx ff u happ hp)
    · cases hl : env.lsRemoteOk u
      · exact Or.inr (Or.inl (preInit_badRemote env ctx ff u happ hp hl))
      · rcases hfl : env.cwdFiles with _ | ⟨a, l⟩
        · cases hc : env.cloneOk u
          · exact Or.inr (Or.inr (Or.inr (Or.inr (Or.inl
              (preInit_emptyDir_cloneFails env ctx ff u happ hp hl hfl hc)))))
          · rcases hm : env.normalizePMForOS env.packageManager with _ | pm
            · cases hw : env.writeEnvOk
              · exact Or.inr (Or.inr (Or.inr (Or.inr (Or.inr (Or.inr (Or.inl
                  (preInit_persistFails env ctx ff u happ hp hl hfl hc (Or.inl hm) hw)))))))
              · cases hqq : ctx.options.quickstart
                · exact Or.inr (Or.inr (Or.inr (Or.inr (Or.inr (Or.inr (Or.inr (Or.inl
                    ⟨rfl, preInit_appSuccess_noQuickstart env ctx ff u happ hqq hp hl
                      hfl hc (Or.inl hm) hw⟩)))))))
                · exact Or.inr (Or.inr (Or.inr (Or.inr (Or.inr (Or.inr (Or.inr (Or.inr
                    ⟨rfl, preInit_appSuccess_quickstart env ctx ff u happ hqq hp hl
                      hfl hc (Or.inl hm) hw⟩)))))))
            · cases hi : env.installOk
              · exact Or.inr (Or.inr (Or.inr (Or.inr (Or.inr (Or.inl
                  ⟨pm, preInit_installFails env ctx ff u pm happ hp hl hfl hc hm hi⟩)))))
              · cases hw : env.writeEnvOk
                · exact Or.inr (Or.inr (Or.inr (Or.inr (Or.inr (Or.inr (Or.inl
                    (preInit_persistFails env ctx ff u happ hp hl hfl hc (Or.inr hi) hw)))))))
                · cases hqq : ctx.options.quickstart
                  · exact Or.inr (Or.inr (Or.inr (Or.inr (Or.inr (Or.inr (Or.inr (Or.inl
                      ⟨rfl, preInit_appSuccess_noQuickstart env ctx ff u happ hqq hp hl
                        hfl hc (Or.inr hi) hw⟩)))))))
                  · exact Or.inr (Or.inr (Or.inr (Or.inr (Or.inr (Or.inr (Or.inr (Or.inr
                      ⟨rfl, preInit_appSuccess_quickstart env ctx ff u happ hqq hp hl
                        hfl hc (Or.inr hi) hw⟩)))))))
        · have hf : env.cwdFiles ≠ [] := by simp [hfl]
          cases hc : env.cloneOk u
          · exact Or.inr (Or.inr (Or.inr (Or.inl
              (preInit_nonEmptyDir_cloneFails env ctx ff u happ hp hl hf hc))))
          · exact Or.inr (Or.inr (Or.inl
              (preInit_nonEmptyDir_cloneOk env ctx ff u happ hp hl hf hc)))

/-- The install step never writes the local environment record. -/
theorem installEvents_no_write (env : Env) (info : LocalEnvInfo) :
    Event.writeLocalEnvInfo info ∉ installEvents env := by
  rcases hm : env.normalizePMForOS env.packageManager with _ | pm <;>
    simp [installEvents, hm]

/-- The install step never initializes the feature-flag store. -/
theorem installEvents_no_ffInit (env : Env) (r : Option LocalEnvInfo) :
    Event.ffInit r ∉ installEvents env := by
  rcases hm : env.normalizePMForOS env.packageManager with _ | pm <;>
    simp [installEvents, hm]

/-- The install step emits no success telemetry. -/
theorem installEvents_countP_emitSuccess (env : Env) :
    (installEvents env).countP (fun ev => Event.isEmitSuccess ev) = 0 := by
  rcases hm : env.normalizePMForOS env.packageManager with _ | pm <;>
    simp [installEvents, Event.isEmitSuccess, hm]

/-- Every event of the install step is an install invocation, hence not a
success telemetry emission. -/
theorem installEvents_all_not_emitSuccess (env : Env) :
    ∀ ev ∈ installEvents env, Event.isEmitSuccess ev = false := by
  intro ev hev
  rcases hm : env.normalizePMForOS env.packageManager with _ | pm <;>
    simp [installEvents, hm] at hev
  rw [hev]
  rfl

/-- A feature-flag initialization inside one skeleton-generator invocation
reads exactly the record the provider callback supplies. -/
theorem skeletonEvents_ffInit_mem (env : Env) (rv : Option LocalEnvInfo)
    (ff : Bool) (r : Option LocalEnvInfo)
    (h : Event.ffInit r ∈ skeletonEvents env rv ff) : r = rv := by
  cases ff <;> simp [skeletonEvents] at h
  exact h

/-- The skeleton generator never writes the local environment record. -/
theorem skeletonEvents_no_write (env : Env) (rv : Option LocalEnvInfo)
    (ff : Bool) (info : LocalEnvInfo) :
    Event.writeLocalEnvInfo info ∉ skeletonEvents env rv ff := by
  cases ff <;> simp [skeletonEvents]

/-- A concrete sample repository url for evaluating the model. -/
def demoUrl : String := "https://github.com/aws-samples/demo.git"

/-- A concrete current working directory for evaluating the model. -/
def demoCwd : String := "/home/user/project"

/-- A concrete stray file making the working directory non-empty. -/
def demoFile : String := "README.md"

/-- A concrete context in sample-app mode with no quickstart flag and an
empty execution-info record. -/
def demoCtx : Context :=
  { options := { app := some demoUrl, quickstart := false },
    exeInfo := { localEnvInfo := none, inputParams := { amplify := { envName := none } } } }

/-- A concrete context with both the app option and the quickstart flag. -/
def demoCtxBoth : Context :=
  { demoCtx with options := { app := some demoUrl, quickstart := true } }

/-- A concrete context in quickstart-only mode with no caller-supplied local
environment record. -/
def demoCtxQuickstart : Context :=
  { demoCtx with options := { app := none, quickstart := true } }

/-- The concrete detected package manager name. -/
def npmName : String := "npm"

/-- A concrete environment in which every external operation succeeds, the
working directory is empty and npm is the detected package manager. -/
def demoEnvOk : Env :=
  { cwd := demoCwd, cwdFiles := [],
    urlParseOk := fun _ => true, lsRemoteOk := fun _ => true,
    cloneOk := fun _ => true,
    packageManager := some npmName, normalizePMForOS := fun pm => pm,
    installOk := true, writeEnvOk := true,
    gitIgnorePath := fun p => p, amplifyDirPath := fun p => p,
    skeletonLocalDir := demoCwd }

/-- The all-succeeding environment except that the working directory holds one
file and the clone invocation fails (as `git` refuses to clone into a
non-empty directory). -/
def demoEnvNonEmpty : Env :=
  { demoEnvOk with cwdFiles := [demoFile], cloneOk := fun _ => false }

/-- The all-succeeding environment except that `url.parse` rejects every
url. -/
def demoEnvBadUrl : Env :=
  { demoEnvOk with urlParseOk := fun _ => false }

/-- The all-succeeding environment except that the clone invocation fails. -/
def demoEnvCloneFail : Env :=
  { demoEnvOk with cloneOk := fun _ => false }

/-- C5: across any number of invocations of the skeleton generator within one
process (entered with no pending exit), the feature-flag store is initialized
at most once — exactly once when it starts uninitialized and at least one
invocation runs, never when it already reported itself initialized — while
`ensureDefaultFeatureFlags` runs once per invocation. -/
theorem c5_featureFlags_init_at_most_once (env : Env) (st : PState) (n : Nat)
    (h : st.pendingExit = none) :
    ((iterSkeleton env n st).events.countP (fun ev => Event.isFfInitEv ev) =
      st.events.countP (fun ev => Event.isFfInitEv ev) +
        (if st.ffInitDone ∨ n = 0 then 0 else 1)) ∧
    ((iterSkeleton env n st).events.countP (fun ev => Event.isFfEnsure ev) =
      st.events.countP (fun ev => Event.isFfEnsure ev) + n) := by
  rw [iterSkeleton_eq env n st h]
  constructor <;>
    simp [Res.events, Res.st, List.countP_append,
      iterEvents_countP_ffInit, iterEvents_countP_ffEnsure]

/-- Witness for C5 at a concrete input: three skeleton-generator invocations
from an uninitialized store initialize the feature flags exactly once and
ensure the defaults three times. -/
theorem c5_featureFlags_init_at_most_once_witness :
    (iterSkeleton demoEnvOk 3 (initialState demoCtxQuickstart false)).events.countP
        (fun ev => Event.isFfInitEv ev) = 1 ∧
    (iterSkeleton demoEnvOk 3 (initialState demoCtxQuickstart false)).events.countP
        (fun ev => Event.isFfEnsure ev) = 3 := by
  have h := c5_featureFlags_init_at_most_once demoEnvOk
    (initialState demoCtxQuickstart false) 3 rfl
  rcases h with ⟨h1, h2⟩
  refine ⟨?_, ?_⟩
  · rw [h1]; decide
  · rw [h2]; decide

/-- C6: when no normalized package manager is determined, `installPackage`
performs zero subprocess invocations and raises no error; when one is
determined, it invokes exactly that manager's install command, exactly once
(whether or not the install then succeeds). -/
theorem c6_installPackage_spec (env : Env) (st : PState)
    (h : st.pendingExit = none) :
    (env.normalizePMForOS env.packageManager = none →
      installPackage env st = .ok st ()) ∧
    (∀ pm, env.normalizePMForOS env.packageManager = some pm →
      (installPackage env st).st = st.emit (.execInstall pm) ∧
      (env.installOk = true →
        installPackage env st = .ok (st.emit (.execInstall pm)) ())) := by
  refine ⟨fun hm => ?_, fun pm hm => ⟨?_, fun hi => ?_⟩⟩
  · simp [installPackage, h, hm]
  · cases hi : env.installOk <;> simp [installPackage, Res.st, h, hm, hi]
  · simp [installPackage, h, hm, hi]

/-- Witness for C6 at concrete inputs: with npm detected the install command
runs exactly once; with no detectable manager nothing is invoked. -/
theorem c6_installPackage_spec_witness :
    installPackage demoEnvOk (initialState demoCtx false) =
      .ok ((initialState demoCtx false).emit (.execInstall npmName)) () := by
  exact (c6_installPackage_spec demoEnvOk (initialState demoCtx false) rfl).2
    npmName rfl |>.2 rfl

/-- C7: `setLocalEnvDefaults` always builds the record from the current
working directory with editor `vscode` and environment name `sampledev`,
stores it on the execution context, stores the environment name into the
context's input-parameters structure, and only then delegates persistence:
the trace it appends is the three warnings followed by the write of the fully
built record, and the final context carries both stored fields. -/
theorem c7_setLocalEnvDefaults_record (env : Env) (st : PState) :
    (setLocalEnvDefaults env st).st.ctx.exeInfo.localEnvInfo =
      some { projectPath := env.cwd, defaultEditor := "vscode", envName := "sampledev" } ∧
    (setLocalEnvDefaults env st).st.ctx.exeInfo.inputParams.amplify.envName =
      some "sampledev" ∧
    (setLocalEnvDefaults env st).st.events =
      st.events ++
        [.printWarning editorMsg, .printWarning envNameMsg, .printWarning configureMsg,
          .writeLocalEnvInfo
            { projectPath := env.cwd, defaultEditor := "vscode", envName := "sampledev" }] := by
  rw [setLocalEnvDefaults_st]
  refine ⟨?_, ?_, ?_⟩ <;>
    simp [populateCtx, sampleEnvInfo, localEnvEvents, vscodeEditor, sampledevEnv]

/-- C10: whenever `preInitSetup` returns normally, the value returned is the
threaded context itself; the returned context is either the caller's context
unchanged or the caller's context with exactly the two local-environment
fields rewritten (`populateCtx`); and when the app option is absent the
context comes back entirely unchanged. -/
theorem c10_preInitSetup_frame (env : Env) (ctx : Context) (ff : Bool)
    (st : PState) (c : Context)
    (h : preInitSetup env (initialState ctx ff) = .ok st c) :
    c = st.ctx ∧ (c = ctx ∨ c = populateCtx env ctx) ∧
    (ctx.options.app = none → c = ctx) := by
  rcases preInit_total env ctx ff with ⟨happ, _, hP⟩ | ⟨happ, _, hP⟩ |
    ⟨u, happ, hP⟩
  · rw [hP] at h
    injection h with h1 h2
    subst h1
    subst h2
    simp
  · rw [hP] at h
    injection h with h1 h2
    subst h1
    subst h2
    simp
  · rcases hP with h1 | h2 | h3 | h4 | h5 | ⟨pm, h6⟩ | h7 | ⟨hq, h8⟩ | ⟨hq, h9⟩
    · rw [h1] at h; exact Res.noConfusion h
    · rw [h2] at h; exact Res.noConfusion h
    · rw [h3] at h; exact Res.noConfusion h
    · rw [h4] at h; exact Res.noConfusion h
    · rw [h5] at h; exact Res.noConfusion h
    · rw [h6] at h; exact Res.noConfusion h
    · rw [h7] at h; exact Res.noConfusion h
    · rw [h8] at h
      injection h with ha hb
      subst ha
      subst hb
      simp [happ]
    · rw [h9] at h
      injection h with ha hb
      subst ha
      subst hb
      simp [happ]

/-- A concrete context with neither trigger option. -/
def demoCtxNoOptions : Context :=
  { demoCtx with options := { app := none, quickstart := false } }

/-- Witness for C10 at a concrete input: a no-option invocation returns
normally and hands back the very context value it was given. -/
theorem c10_preInitSetup_frame_witness :
    preInitSetup demoEnvOk (initialState demoCtxNoOptions false) =
      .ok (initialState demoCtxNoOptions false) demoCtxNoOptions ∧
    demoCtxNoOptions = (initialState demoCtxNoOptions false).ctx := by
  have hpre : preInitSetup demoEnvOk (initialState demoCtxNoOptions false) =
      .ok (initialState demoCtxNoOptions false) demoCtxNoOptions := by decide
  exact ⟨hpre, (c10_preInitSetup_frame demoEnvOk demoCtxNoOptions false _ _ hpre).1⟩

/-- C2: in app mode, a non-parseable or unreachable url makes the run
terminate the process with exit code 1 having emitted exactly one telemetry
error, with no clone invocation and no file write anywhere in the trace;
while on a valid reachable url the validator returns leaving the state
untouched except for recording its single remote-listing probe — no print,
no telemetry, no scheduled exit, no context change. -/
theorem c2_validator_contract (env : Env) (ctx : Context) (ff : Bool) (u : String)
    (happ : ctx.options.app = some u) :
    ((env.urlParseOk u = false ∨ env.lsRemoteOk u = false) →
      (run env ctx ff).exitCode = some 1 ∧
      (run env ctx ff).events.countP (fun ev => Event.isEmitError ev) = 1 ∧
      (∀ v, Event.execClone v ∉ (run env ctx ff).events) ∧
      (run env ctx ff).events.countP (fun ev => Event.isFileWrite ev) = 0) ∧
    (env.urlParseOk u = true → env.lsRemoteOk u = true →
      ∀ st, validateGithubRepo env u st = st.emit (.execLsRemote u)) := by
  constructor
  · intro hbad
    cases hp : env.urlParseOk u
    · rw [run_badParse env ctx ff u happ hp]
      refine ⟨rfl, ?_, ?_, ?_⟩
      · simp [Res.events, Res.st, Event.isEmitError, List.countP_cons]
      · intro v; simp [Res.events, Res.st]
      · simp [Res.events, Res.st, Event.isFileWrite, List.countP_cons]
    · have hl : env.lsRemoteOk u = false := by
        rcases hbad with hb | hb
        · rw [hp] at hb; cases hb
        · exact hb
      rw [run_badRemote env ctx ff u happ hp hl]
      refine ⟨rfl, ?_, ?_, ?_⟩
      · simp [Res.events, Res.st, Event.isEmitError, List.countP_cons]
      · intro v; simp [Res.events, Res.st]
      · simp [Res.events, Res.st, Event.isFileWrite, List.countP_cons]
  · intro hp hl st
    simp [validateGithubRepo, PState.emit, hp, hl]

/-- Witness for C2 at a concrete input: a rejected url exits with code 1
after exactly one telemetry error, and on the all-ok environment the
validator only records its probe. -/
theorem c2_validator_contract_witness :
    ((run demoEnvBadUrl demoCtx false).exitCode = some 1 ∧
      (run demoEnvBadUrl demoCtx false).events.countP
        (fun ev => Event.isEmitError ev) = 1) ∧
    validateGithubRepo demoEnvOk demoUrl (initialState demoCtx false) =
      (initialState demoCtx false).emit (.execLsRemote demoUrl) := by
  have h1 := (c2_validator_contract demoEnvBadUrl demoCtx false demoUrl rfl).1
    (Or.inl rfl)
  have h2 := (c2_validator_contract demoEnvOk demoCtx false demoUrl rfl).2
    rfl rfl (initialState demoCtx false)
  exact ⟨⟨h1.1, h1.2.1⟩, h2⟩

/-- C3: in app mode the orchestrator runs validation, cloning, installation
and local-environment initialization strictly in that order (the exact trace
of the all-success case), and aborts at the first failing step with no later
step executed: a validation failure exits before any clone, install or write;
a failure in the clone step exits before any install, write or quickstart
work; an install failure throws before any write; a persistence failure
throws before any quickstart work. -/
theorem c3_pipeline_order_and_failfast (env : Env) (ctx : Context) (ff : Bool)
    (u : String) (happ : ctx.options.app = some u) :
    (env.urlParseOk u = true → env.lsRemoteOk u = true → env.cwdFiles = [] →
      env.cloneOk u = true →
      (env.normalizePMForOS env.packageManager = none ∨ env.installOk = true) →
      env.writeEnvOk = true → ctx.options.quickstart = false →
      run env ctx ff =
        .ok ⟨populateCtx env ctx, ff, none, appSuccessEvents env u⟩
          (populateCtx env ctx)) ∧
    ((env.urlParseOk u = false ∨ env.lsRemoteOk u = false) →
      (run env ctx ff).exitCode = some 1 ∧
      (run env ctx ff).events.countP (fun ev => Event.isExecClone ev) = 0 ∧
      (run env ctx ff).events.countP (fun ev => Event.isExecInstall ev) = 0 ∧
      (run env ctx ff).events.countP (fun ev => Event.isFileWrite ev) = 0) ∧
    (env.urlParseOk u = true → env.lsRemoteOk u = true →
      (env.cwdFiles ≠ [] ∨ env.cloneOk u = false) →
      (run env ctx ff).exitCode = some 1 ∧
      (run env ctx ff).events.countP (fun ev => Event.isExecInstall ev) = 0 ∧
      (run env ctx ff).events.countP (fun ev => Event.isFileWrite ev) = 0 ∧
      (run env ctx ff).events.countP (fun ev => Event.isEmitSuccess ev) = 0) ∧
    (∀ pm, env.urlParseOk u = true → env.lsRemoteOk u = true →
      env.cwdFiles = [] → env.cloneOk u = true →
      env.normalizePMForOS env.packageManager = some pm → env.installOk = false →
      run env ctx ff =
        .threw ⟨ctx, ff, none,
          [.printWarning noteMsg, .execLsRemote u, .execClone u, .execInstall pm]⟩
          (.installError pm)) ∧
    (env.urlParseOk u = true → env.lsRemoteOk u = true → env.cwdFiles = [] →
      env.cloneOk u = true →
      (env.normalizePMForOS env.packageManager = none ∨ env.installOk = true) →
      env.writeEnvOk = false →
      run env ctx ff =
        .threw ⟨populateCtx env ctx, ff, none,
          [.printWarning noteMsg, .execLsRemote u, .execClone u] ++
            installEvents env ++ localEnvEvents env⟩ .persistenceError) := by
  refine ⟨?_, ?_, ?_, ?_, ?_⟩
  · intro hp hl hf hc hi hw hq
    exact run_appSuccess_noQuickstart env ctx ff u happ hq hp hl hf hc hi hw
  · intro hbad
    cases hp : env.urlParseOk u
    · rw [run_badParse env ctx ff u happ hp]
      refine ⟨rfl, ?_, ?_, ?_⟩ <;>
        simp [Res.events, Res.st, Event.isExecClone, Event.isExecInstall,
          Event.isFileWrite, List.countP_cons]
    · have hl : env.lsRemoteOk u = false := by
        rcases hbad with hb | hb
        · rw [hp] at hb; cases hb
        · exact hb
      rw [run_badRemote env ctx ff u happ hp hl]
      refine ⟨rfl, ?_, ?_, ?_⟩ <;>
        simp [Res.events, Res.st, Event.isExecClone, Event.isExecInstall,
          Event.isFileWrite, List.countP_cons]
  · intro hp hl hdisj
    rcases hdisj with hf | hcf
    · cases hco : env.cloneOk u
      · rw [run_nonEmptyDir_cloneFails env ctx ff u happ hp hl hf hco]
        refine ⟨rfl, ?_, ?_, ?_⟩ <;>
          simp [Res.events, Res.st, Event.isExecInstall, Event.isFileWrite,
            Event.isEmitSuccess, List.countP_cons]
      · rw [run_nonEmptyDir_cloneOk env ctx ff u happ hp hl hf hco]
        refine ⟨rfl, ?_, ?_, ?_⟩ <;>
          simp [Res.events, Res.st, Event.isExecInstall, Event.isFileWrite,
            Event.isEmitSuccess, List.countP_cons]
    · rcases hfl : env.cwdFiles with _ | ⟨a, l⟩
      · rw [run_emptyDir_cloneFails env ctx ff u happ hp hl hfl hcf]
        refine ⟨rfl, ?_, ?_, ?_⟩ <;>
          simp [Res.events, Res.st, Event.isExecInstall, Event.isFileWrite,
            Event.isEmitSuccess, List.countP_cons]
      · have hf : env.cwdFiles ≠ [] := by simp [hfl]
        rw [run_nonEmptyDir_cloneFails env ctx ff u happ hp hl hf hcf]
        refine ⟨rfl, ?_, ?_, ?_⟩ <;>
          simp [Res.events, Res.st, Event.isExecInstall, Event.isFileWrite,
            Event.isEmitSuccess, List.countP_cons]
  · intro pm hp hl hf hc hm hi
    exact run_installFails env ctx ff u pm happ hp hl hf hc hm hi
  · intro hp hl hf hc hi hw
    exact run_persistFails env ctx ff u happ hp hl hf hc hi hw

/-- Witness for C3 at a concrete input: the all-success sample-app run
produces exactly the ordered validate–clone–install–initialize trace. -/
theorem c3_pipeline_order_and_failfast_witness :
    run demoEnvOk demoCtx false =
      .ok ⟨populateCtx demoEnvOk demoCtx, false, none,
        appSuccessEvents demoEnvOk demoUrl⟩ (populateCtx demoEnvOk demoCtx) := by
  exact (c3_pipeline_order_and_failfast demoEnvOk demoCtx false demoUrl rfl).1
    rfl rfl rfl rfl (Or.inr rfl) rfl rfl

/-- C1: evaluation of the code at the failing input.  The claim states that
for a working directory containing at least one entry, `cloneRepo` reports
the fixed message, emits one telemetry error, and exits with code 1 without
ever invoking the clone command.  On the concrete non-empty directory the
fixed message is printed and the process does exit with code 1 — but, the
non-empty branch having no `return` after the scheduled deferred exit, the
clone command is still invoked in the same synchronous stretch, and since the
clone fails (git refuses a non-empty target) a second telemetry error is
emitted.  On the empty directory the clone command runs exactly once, as
claimed. -/
theorem c1_nonEmptyDir_still_invokes_clone :
    (Event.printError nonEmptyDirMsg ∈ (run demoEnvNonEmpty demoCtx false).events ∧
      (run demoEnvNonEmpty demoCtx false).exitCode = some 1 ∧
      Event.execClone demoUrl ∈ (run demoEnvNonEmpty demoCtx false).events ∧
      (run demoEnvNonEmpty demoCtx false).events.countP
        (fun ev => Event.isEmitError ev) = 2) ∧
    (run demoEnvOk demoCtx false).events.countP
      (fun ev => Event.isExecClone ev) = 1 := by
  decide

/-- C8 counterexample: an invocation with the quickstart flag set (but whose
accompanying app url fails validation) exits with code 1 without copying the
skeleton, without ensuring feature flags and without emitting success
telemetry — refuting the claim as stated for every quickstart invocation. -/
theorem c8_counterexample :
    demoCtxBoth.options.quickstart = true ∧
    (run demoEnvBadUrl demoCtxBoth false).exitCode = some 1 ∧
    (run demoEnvBadUrl demoCtxBoth false).events.countP
      (fun ev => Event.isEmitSuccess ev) = 0 ∧
    (run demoEnvBadUrl demoCtxBoth false).events.countP
      (fun ev => Event.isFileWrite ev) = 0 ∧
    (run demoEnvBadUrl demoCtxBoth false).events.countP
      (fun ev => Event.isFfEnsure ev) = 0 := by
  decide

/-- C8 (amended): for every invocation with the quickstart flag set in which
the sample-app branch is not taken or completes all its steps successfully,
the skeleton template tree is copied into the reserved configuration
directory, default feature flags are ensured, exactly one success telemetry
event is emitted, and the process terminates with exit code 0. -/
theorem c8_quickstart_success (env : Env) (ctx : Context) (ff : Bool)
    (hq : ctx.options.quickstart = true)
    (hap : ctx.options.app = none ∨
      ∃ u, ctx.options.app = some u ∧
        env.urlParseOk u = true ∧ env.lsRemoteOk u = true ∧
        env.cwdFiles = [] ∧ env.cloneOk u = true ∧
        (env.normalizePMForOS env.packageManager = none ∨ env.installOk = true) ∧
        env.writeEnvOk = true) :
    (run env ctx ff).exitCode = some 0 ∧
    Event.copyDir env.skeletonLocalDir (env.amplifyDirPath env.cwd) ∈
      (run env ctx ff).events ∧
    Event.ffEnsureDefaults ∈ (run env ctx ff).events ∧
    (run env ctx ff).events.countP (fun ev => Event.isEmitSuccess ev) = 1 := by
  rcases hap with happ | ⟨u, happ, hp, hl, hf, hc, hi, hw⟩
  · rw [run_quickstartOnly env ctx ff happ hq]
    refine ⟨rfl, ?_, ?_, ?_⟩ <;> cases ff <;>
      simp [Res.events, Res.st, skeletonEvents, Event.isEmitSuccess,
        List.countP_append, List.countP_cons]
  · rw [run_appSuccess_quickstart env ctx ff u happ hq hp hl hf hc hi hw]
    refine ⟨rfl, ?_, ?_, ?_⟩ <;> cases ff <;>
      simp [Res.events, Res.st, appSuccessEvents, localEnvEvents, skeletonEvents,
        Event.isEmitSuccess, List.countP_append, List.countP_cons] <;>
      exact installEvents_all_not_emitSuccess env

/-- Witness for C8 (amended) at a concrete input: a pure quickstart
invocation copies the skeleton, ensures the defaults, emits one success event
and exits with code 0. -/
theorem c8_quickstart_success_witness :
    (run demoEnvOk demoCtxQuickstart false).exitCode = some 0 ∧
    Event.copyDir demoEnvOk.skeletonLocalDir
        (demoEnvOk.amplifyDirPath demoEnvOk.cwd) ∈
      (run demoEnvOk demoCtxQuickstart false).events ∧
    Event.ffEnsureDefaults ∈ (run demoEnvOk demoCtxQuickstart false).events ∧
    (run demoEnvOk demoCtxQuickstart false).events.countP
      (fun ev => Event.isEmitSuccess ev) = 1 := by
  exact c8_quickstart_success demoEnvOk demoCtxQuickstart false rfl (Or.inl rfl)

/-- C4 counterexample: in a quickstart-only invocation whose caller supplied
no local environment record, feature-flag initialization reads an unpopulated
record through the environment-provider callback — the record is not fully
populated before that read, refuting the claim over every execution of the
pipeline. -/
theorem c4_counterexample :
    demoCtxQuickstart.exeInfo.localEnvInfo = none ∧
    Event.ffInit none ∈ (run demoEnvOk demoCtxQuickstart false).events := by
  decide

/-- C4 (amended): the persistence collaborator is only ever handed the fully
populated record (current directory, `vscode`, `sampledev`); in every
execution in which the sample-app branch runs, any feature-flag
initialization reads the fully populated record through the provider
callback; and in app-less executions any feature-flag initialization reads
exactly the caller-supplied record, populated whenever the caller's record
was. -/
theorem c4_record_populated_before_use (env : Env) (ctx : Context) (ff : Bool) :
    (∀ info, Event.writeLocalEnvInfo info ∈ (run env ctx ff).events →
      info = sampleEnvInfo env) ∧
    (∀ u, ctx.options.app = some u →
      ∀ r, Event.ffInit r ∈ (run env ctx ff).events →
        r = some (sampleEnvInfo env)) ∧
    (ctx.options.app = none → ctx.exeInfo.localEnvInfo.isSome = true →
      ∀ r, Event.ffInit r ∈ (run env ctx ff).events → r.isSome = true) := by
  rcases preInit_total env ctx ff with ⟨happ, _, hP⟩ | ⟨happ, _, hP⟩ |
    ⟨u, happ, hP⟩
  · have hr : run env ctx ff = .ok ⟨ctx, ff, none, []⟩ ctx := by simp [run, hP]
    rw [hr]
    refine ⟨?_, ?_, ?_⟩ <;> simp [Res.events, Res.st]
  · have hr : run env ctx ff =
        .exited ⟨ctx, true, some 0,
          skeletonEvents env ctx.exeInfo.localEnvInfo ff ++ [.emitSuccess]⟩ 0 := by
      simp [run, hP]
    rw [hr]
    refine ⟨?_, ?_, ?_⟩
    · intro info hmem
      exact absurd hmem (by cases ff <;> simp [Res.events, Res.st, skeletonEvents])
    · intro u hu
      rw [happ] at hu
      cases hu
    · intro _ hsome r hmem
      have hr2 : r = ctx.exeInfo.localEnvInfo := by
        cases ff <;> simp [Res.events, Res.st, skeletonEvents] at hmem
        exact hmem
      rw [hr2]
      exact hsome
  · rcases hP with h1 | h2 | h3 | h4 | h5 | ⟨pm, h6⟩ | h7 | ⟨hq, h8⟩ | ⟨hq, h9⟩
    · have hr : run env ctx ff = .exited ⟨ctx, ff, some 1,
          [.printWarning noteMsg, .printError invalidUrlMsg,
            .emitError (.urlParseError u)]⟩ 1 := by simp [run, h1]
      rw [hr]
      refine ⟨?_, ?_, ?_⟩ <;> simp [Res.events, Res.st, happ]
    · have hr : run env ctx ff = .exited ⟨ctx, ff, some 1,
          [.printWarning noteMsg, .execLsRemote u, .printError invalidUrlMsg,
            .emitError (.lsRemoteError u)]⟩ 1 := by simp [run, h2]
      rw [hr]
      refine ⟨?_, ?_, ?_⟩ <;> simp [Res.events, Res.st, happ]
    · have hr : run env ctx ff = .exited ⟨ctx, ff, some 1,
          [.printWarning noteMsg, .execLsRemote u, .printError nonEmptyDirMsg,
            .emitError (.nonEmptyDirectoryError nonEmptyDirMsg), .execClone u]⟩ 1 := by
        simp [run, h3]
      rw [hr]
      refine ⟨?_, ?_, ?_⟩ <;> simp [Res.events, Res.st, happ]
    · have hr : run env ctx ff = .exited ⟨ctx, ff, some 1,
          [.printWarning noteMsg, .execLsRemote u, .printError nonEmptyDirMsg,
            .emitError (.nonEmptyDirectoryError nonEmptyDirMsg), .execClone u,
            .emitError (.cloneError u)]⟩ 1 := by simp [run, h4]
      rw [hr]
      refine ⟨?_, ?_, ?_⟩ <;> simp [Res.events, Res.st, happ]
    · have hr : run env ctx ff = .exited ⟨ctx, ff, some 1,
          [.printWarning noteMsg, .execLsRemote u, .execClone u,
            .emitError (.cloneError u)]⟩ 1 := by simp [run, h5]
      rw [hr]
      refine ⟨?_, ?_, ?_⟩ <;> simp [Res.events, Res.st, happ]
    · have hr : run env ctx ff = .threw ⟨ctx, ff, none,
          [.printWarning noteMsg, .execLsRemote u, .execClone u,
            .execInstall pm]⟩ (.installError pm) := by simp [run, h6]
      rw [hr]
      refine ⟨?_, ?_, ?_⟩ <;> simp [Res.events, Res.st, happ]
    · have hr : run env ctx ff = .threw ⟨populateCtx env ctx, ff, none,
          [.printWarning noteMsg, .execLsRemote u, .execClone u] ++
            installEvents env ++ localEnvEvents env⟩ .persistenceError := by
        simp [run, h7]
      rw [hr]
      refine ⟨?_, ?_, ?_⟩
      · intro info hmem
        simp [Res.events, Res.st, localEnvEvents,
          installEvents_no_write] at hmem
        rw [hmem]
      · intro u' _ r hmem
        simp [Res.events, Res.st, localEnvEvents,
          installEvents_no_ffInit] at hmem
      · intro hnone
        rw [happ] at hnone
        cases hnone
    · have hr : run env ctx ff =
          .ok ⟨populateCtx env ctx, ff, none, appSuccessEvents env u⟩
            (populateCtx env ctx) := by simp [run, h8]
      rw [hr]
      refine ⟨?_, ?_, ?_⟩
      · intro info hmem
        simp [Res.events, Res.st, appSuccessEvents, localEnvEvents,
          installEvents_no_write] at hmem
        rw [hmem]
      · intro u' _ r hmem
        simp [Res.events, Res.st, appSuccessEvents, localEnvEvents,
          installEvents_no_ffInit] at hmem
      · intro hnone
        rw [happ] at hnone
        cases hnone
    · have hr : run env ctx ff =
          .exited ⟨populateCtx env ctx, true, some 0,
            appSuccessEvents env u ++
              skeletonEvents env (some (sampleEnvInfo env)) ff ++
              [.emitSuccess]⟩ 0 := by simp [run, h9]
      rw [hr]
      refine ⟨?_, ?_, ?_⟩
      · intro info hmem
        cases ff <;>
          simp [Res.events, Res.st, appSuccessEvents, localEnvEvents,
            skeletonEvents, installEvents_no_write] at hmem <;>
          rw [hmem]
      · intro u' _ r hmem
        cases ff <;>
          simp [Res.events, Res.st, appSuccessEvents, localEnvEvents,
            skeletonEvents, installEvents_no_ffInit] at hmem
        exact hmem
      · intro hnone
        rw [happ] at hnone
        cases hnone

/-- Witness for C4 (amended) at a concrete input: in the all-success
both-options run the feature-flag initialization event occurs and reads the
fully populated record. -/
theorem c4_record_populated_before_use_witness :
    Event.ffInit (some (sampleEnvInfo demoEnvOk)) ∈
      (run demoEnvOk demoCtxBoth false).events ∧
    some (sampleEnvInfo demoEnvOk) = some (sampleEnvInfo demoEnvOk) := by
  have hmem : Event.ffInit (some (sampleEnvInfo demoEnvOk)) ∈
      (run demoEnvOk demoCtxBoth false).events := by decide
  exact ⟨hmem, (c4_record_populated_before_use demoEnvOk demoCtxBoth false).2.1
    demoUrl rfl _ hmem⟩

/-- C9 counterexample: with a valid reachable url, an empty working directory
and a failing clone, the clone failure is caught, emitted to telemetry and
converted into an exit with code 1 — but no error message at all is printed,
refuting the claim that each of the three locally-caught failure kinds is
reported via a fixed user-facing message. -/
theorem c9_counterexample :
    (run demoEnvCloneFail demoCtx false).exitCode = some 1 ∧
    (run demoEnvCloneFail demoCtx false).events.countP
      (fun ev => Event.isEmitError ev) = 1 ∧
    (run demoEnvCloneFail demoCtx false).events.countP
      (fun ev => Event.isPrintError ev) = 0 := by
  decide

/-- C9 (amended): no exception of the three locally-caught failure kinds
(invalid remote url, non-empty directory, clone failure) ever escapes to the
caller — any exception escaping the pipeline is an install or persistence
failure — and each of the three kinds is emitted to telemetry and converted
into a deferred process termination with exit code 1; the invalid-url and
non-empty-directory failures are additionally reported via their fixed
user-facing messages, while a lone clone failure is converted silently, no
message of its own being printed. -/
theorem c9_propagation_policy (env : Env) (ctx : Context) (ff : Bool) :
    (∀ st e, run env ctx ff = .threw st e → JsError.isCaughtKind e = false) ∧
    (∀ u, ctx.options.app = some u →
      (((env.urlParseOk u = false ∨ env.lsRemoteOk u = false) →
        (run env ctx ff).exitCode = some 1 ∧
        Event.printError invalidUrlMsg ∈ (run env ctx ff).events ∧
        (run env ctx ff).events.countP (fun ev => Event.isEmitError ev) = 1) ∧
      (env.urlParseOk u = true → env.lsRemoteOk u = true → env.cwdFiles ≠ [] →
        (run env ctx ff).exitCode = some 1 ∧
        Event.printError nonEmptyDirMsg ∈ (run env ctx ff).events ∧
        Event.emitError (.nonEmptyDirectoryError nonEmptyDirMsg) ∈
          (run env ctx ff).events) ∧
      (env.urlParseOk u = true → env.lsRemoteOk u = true → env.cloneOk u = false →
        (run env ctx ff).exitCode = some 1 ∧
        Event.emitError (.cloneError u) ∈ (run env ctx ff).events) ∧
      (env.urlParseOk u = true → env.lsRemoteOk u = true → env.cwdFiles = [] →
        env.cloneOk u = false →
        (run env ctx ff).events.countP (fun ev => Event.isPrintError ev) = 0))) := by
  constructor
  · intro st e h
    rcases preInit_total env ctx ff with ⟨_, _, hP⟩ | ⟨_, _, hP⟩ |
      ⟨u, happ, hP⟩
    · simp [run, hP] at h
    · simp [run, hP] at h
    · rcases hP with h1 | h2 | h3 | h4 | h5 | ⟨pm, h6⟩ | h7 | ⟨hq, h8⟩ | ⟨hq, h9⟩
      · simp [run, h1] at h
      · simp [run, h2] at h
      · simp [run, h3] at h
      · simp [run, h4] at h
      · simp [run, h5] at h
      · simp [run, h6] at h
        rw [← h.2]
        rfl
      · simp [run, h7] at h
        rw [← h.2]
        rfl
      · simp [run, h8] at h
      · simp [run, h9] at h
  · intro u happ
    refine ⟨?_, ?_, ?_, ?_⟩
    · intro hbad
      cases hp : env.urlParseOk u
      · rw [run_badParse env ctx ff u happ hp]
        refine ⟨rfl, ?_, ?_⟩ <;>
          simp [Res.events, Res.st, Event.isEmitError, List.countP_cons]
      · have hl : env.lsRemoteOk u = false := by
          rcases hbad with hb | hb
          · rw [hp] at hb; cases hb
          · exact hb
        rw [run_badRemote env ctx ff u happ hp hl]
        refine ⟨rfl, ?_, ?_⟩ <;>
          simp [Res.events, Res.st, Event.isEmitError, List.countP_cons]
    · intro hp hl hf
      cases hco : env.cloneOk u
      · rw [run_nonEmptyDir_cloneFails env ctx ff u happ hp hl hf hco]
        refine ⟨rfl, ?_, ?_⟩ <;> simp [Res.events, Res.st]
      · rw [run_nonEmptyDir_cloneOk env ctx ff u happ hp hl hf hco]
        refine ⟨rfl, ?_, ?_⟩ <;> simp [Res.events, Res.st]
    · intro hp hl hco
      rcases hfl : env.cwdFiles with _ | ⟨a, l⟩
      · rw [run_emptyDir_cloneFails env ctx ff u happ hp hl hfl hco]
        refine ⟨rfl, ?_⟩
        simp [Res.events, Res.st]
      · have hf : env.cwdFiles ≠ [] := by simp [hfl]
        rw [run_nonEmptyDir_cloneFails env ctx ff u happ hp hl hf hco]
        refine ⟨rfl, ?_⟩
        simp [Res.events, Res.st]
    · intro hp hl hfl hco
      rw [run_emptyDir_cloneFails env ctx ff u happ hp hl hfl hco]
      simp [Res.events, Res.st, Event.isPrintError, List.countP_cons]

/-- Witness for C9 at a concrete input: a rejected url is reported with the
fixed message and the process exits with code 1. -/
theorem c9_propagation_policy_witness :
    (run demoEnvBadUrl demoCtx false).exitCode = some 1 ∧
    Event.printError invalidUrlMsg ∈ (run demoEnvBadUrl demoCtx false).events := by
  have h := ((c9_propagation_policy demoEnvBadUrl demoCtx false).2 demoUrl rfl).1
    (Or.inl rfl)
  exact ⟨h.1, h.2.1⟩

end AmplifyPreInit
